import Mathlib

/-!
Shallow embedding of the `cobbler` inspect verification portfolio
(`internal/inspect`: `types.go`, `composite.go`, `mutation.go`, and the
translation validator), together with theorems settling the spec claims.

Modelling conventions:
* Go `float64` is modelled as `ℚ` (exact rational arithmetic).
* Go maps are modelled as functions into `Option`.
* Go `(T, error)` returns are modelled as `T × Option String` (the `Option
  String` is the error; `none` is Go's `nil` error).
* The file system is a function from path to optional contents; `os.WriteFile`
  is modelled as a pointwise update (a successful write).  Fallible writes are
  modelled separately where a claim depends on a write failing.
* Go string helpers (`strings.Split`, `strings.Join`, `strings.Replace` with
  count 1, `strings.HasSuffix`) are re-implemented structurally over the
  character list so that every definition kernel-evaluates.
-/

namespace Cobbler

/-! ## Data model (`internal/inspect/types.go`) -/

/-- `Verdict` — outcome of a verification technique (`types.go`). -/
inductive Verdict
  | pass
  | fail
  | skip
  deriving DecidableEq, Repr

/-- `Action` — the composite scorer's recommended action (`types.go`). -/
inductive Action
  | accept
  | mend
  | humanReview
  deriving DecidableEq, Repr

/-- `Evidence` — a single piece of verification evidence (`types.go`).
Fields absent from a Go struct literal default to the zero value `""`. -/
structure Evidence where
  criterionID : String := ""
  filePath : String := ""
  detail : String := ""
  deriving DecidableEq, Repr

/-- `TechniqueResult` — typed result of one verification technique
(`types.go`); `Score` is a `float64`, modelled as `ℚ`. -/
structure TechniqueResult where
  name : String := ""
  score : ℚ := 0
  verdict : Verdict
  evidence : List Evidence := []
  deterministic : Bool := false
  deriving DecidableEq, Repr

/-- `InspectInput` — read-only input snapshot for techniques (`types.go`). -/
structure InspectInput where
  crumbID : String := ""
  workType : String := ""
  modifiedFiles : List String := []
  modifiedPackages : List String := []
  diff : String := ""
  prdCriteria : List String := []
  ucCriteria : List String := []
  fixtureDir : String := ""
  prdRequirements : List (String × String) := []

/-- `CompositeResult` — aggregate verdict (`types.go`). -/
structure CompositeResult where
  techniqueResults : List TechniqueResult
  compositeScore : ℚ
  action : Action
  validScore : Bool
  deriving DecidableEq, Repr

/-- `ErrInsufficientTechniques` (`types.go`): a named error value, modelled by
its message string. -/
def ErrInsufficientTechniques : String :=
  "inspect: fewer than two techniques produced results"

/-- `ErrInvalidWeight` (`types.go`): a named error value, modelled by its
message string. -/
def ErrInvalidWeight : String :=
  "inspect: technique weight must be between 0.0 and 1.0"

/-- `ErrNoTechniques` (`types.go`): a named error value, modelled by its
message string. -/
def ErrNoTechniques : String :=
  "inspect: no techniques registered"

/-! ## Composite scorer (`internal/inspect/composite.go`) -/

/-- `DefaultWeights` (`composite.go`): default scoring weights. -/
def DefaultWeights : String → Option ℚ := fun name =>
  if name = "translation_validation" then some (30 / 100)
  else if name = "mutation_testing" then some (25 / 100)
  else if name = "differential_testing" then some (20 / 100)
  else if name = "property_based_testing" then some (15 / 100)
  else if name = "contract_injection" then some (10 / 100)
  else none

/-- `DefaultAcceptThreshold` (`composite.go`). -/
def DefaultAcceptThreshold : ℚ := 80 / 100

/-- `DefaultMendThreshold` (`composite.go`). -/
def DefaultMendThreshold : ℚ := 50 / 100

/-- `ScorerConfig` (`composite.go`): the technique-name→weight map is a
function into `Option ℚ`. -/
structure ScorerConfig where
  weights : String → Option ℚ
  acceptThreshold : ℚ
  mendThreshold : ℚ
  minDeterministic : ℚ

/-- `DefaultScorerConfig` (`composite.go`); `maps.Copy` of `DefaultWeights` is
the identity in a pure model. -/
def DefaultScorerConfig : ScorerConfig :=
  { weights := DefaultWeights
    acceptThreshold := DefaultAcceptThreshold
    mendThreshold := DefaultMendThreshold
    minDeterministic := 50 / 100 }

/-- `Scorer` (`composite.go`). -/
structure Scorer where
  config : ScorerConfig

/-- `NewScorer` (`composite.go`): stores the configuration; performs no
validation. -/
def NewScorer (config : ScorerConfig) : Scorer :=
  { config := config }

/-- `weightFor` (`composite.go`): configured weight, or the fixed default
`0.10` for a name absent from the map. -/
def Scorer.weightFor (s : Scorer) (name : String) : ℚ :=
  match s.config.weights name with
  | some w => w
  | none => 10 / 100

/-- `actionFor` (`composite.go`). -/
def Scorer.actionFor (s : Scorer) (score : ℚ) : Action :=
  if score ≥ s.config.acceptThreshold then Action.accept
  else if score ≥ s.config.mendThreshold then Action.mend
  else Action.humanReview

/-- One iteration of the accumulation loop in `Score` (`composite.go`,
lines 65–73): skip verdicts are passed over; otherwise the weighted score,
the weight, and the scored count are accumulated. -/
def Scorer.scoreStep (s : Scorer) (acc : ℚ × ℚ × Nat) (r : TechniqueResult) :
    ℚ × ℚ × Nat :=
  if r.verdict = Verdict.skip then acc
  else
    let w := s.weightFor r.name
    (acc.1 + r.score * w, acc.2.1 + w, acc.2.2 + 1)

/-- The accumulation loop of `Score` (`composite.go`): returns
`(weightedSum, totalWeight, scored)`. -/
def Scorer.scoreFold (s : Scorer) (results : List TechniqueResult) :
    ℚ × ℚ × Nat :=
  results.foldl s.scoreStep (0, 0, 0)

/-- `Score` (`composite.go`): composite result from technique results.  In the
`scored < 2` branch the Go code leaves `CompositeScore` at its zero value. -/
def Scorer.Score (s : Scorer) (results : List TechniqueResult) :
    CompositeResult :=
  let acc := s.scoreFold results
  let weightedSum := acc.1
  let totalWeight := acc.2.1
  let scored := acc.2.2
  if scored < 2 then
    { techniqueResults := results
      compositeScore := 0
      action := Action.humanReview
      validScore := false }
  else
    { techniqueResults := results
      compositeScore := weightedSum / totalWeight
      action := s.actionFor (weightedSum / totalWeight)
      validScore := true }

/-- One iteration of the loop in `DeterministicWeight` (`composite.go`,
lines 94–103): accumulates `(deterministicWeight, totalWeight)`. -/
def Scorer.detStep (s : Scorer) (acc : ℚ × ℚ) (r : TechniqueResult) : ℚ × ℚ :=
  if r.verdict = Verdict.skip then acc
  else
    let w := s.weightFor r.name
    (if r.deterministic then acc.1 + w else acc.1, acc.2 + w)

/-- The accumulation loop of `DeterministicWeight` (`composite.go`). -/
def Scorer.detFold (s : Scorer) (results : List TechniqueResult) : ℚ × ℚ :=
  results.foldl s.detStep (0, 0)

/-- `DeterministicWeight` (`composite.go`): fraction of total weight assigned
to deterministic techniques, guarded against a zero total weight. -/
def Scorer.DeterministicWeight (s : Scorer) (results : List TechniqueResult) :
    ℚ :=
  let acc := s.detFold results
  if acc.2 = 0 then 0 else acc.1 / acc.2

/-! ## Specification-side formulations (for comparison with the source) -/

/-- The non-skip results of a list, in order (spec §4.4 step 1: "skip results
are excluded entirely from aggregation"). -/
def nonSkipResults (results : List TechniqueResult) : List TechniqueResult :=
  results.filter (fun r => !(r.verdict = Verdict.skip : Bool))

/-- Spec-side weighted sum `Σ(score_i × weight_i)` over non-skip results. -/
def Scorer.weightedSumOf (s : Scorer) (results : List TechniqueResult) : ℚ :=
  ((nonSkipResults results).map (fun r => r.score * s.weightFor r.name)).sum

/-- Spec-side total weight `Σ(weight_i)` over non-skip results. -/
def Scorer.totalWeightOf (s : Scorer) (results : List TechniqueResult) : ℚ :=
  ((nonSkipResults results).map (fun r => s.weightFor r.name)).sum

/-- Spec-side deterministic weight `Σ(weight_i for deterministic non-skip i)`. -/
def Scorer.detWeightOf (s : Scorer) (results : List TechniqueResult) : ℚ :=
  (((nonSkipResults results).filter (fun r => r.deterministic)).map
    (fun r => s.weightFor r.name)).sum

/-! ## Go string helpers, re-implemented structurally

The Go code uses `strings.HasSuffix`, `strings.Split(content, "\n")`,
`strings.Join(lines, "\n")` and `strings.Replace(line, old, new, 1)`.  They
are re-implemented here over `List Char` so the kernel can evaluate them. -/

/-- `strings.HasSuffix s suffix`. -/
def goHasSuffix (s suf : String) : Bool :=
  suf.data.isSuffixOf s.data

/-- Worker for `goSplitLines`: splits a character list at every newline. -/
def splitLinesAux : List Char → List Char → List (List Char)
  | [], acc => [acc.reverse]
  | c :: rest, acc =>
    if c = '\n' then acc.reverse :: splitLinesAux rest []
    else splitLinesAux rest (c :: acc)

/-- `strings.Split(s, "\n")`. -/
def goSplitLines (s : String) : List String :=
  (splitLinesAux s.data []).map String.mk

/-- `strings.Join(lines, "\n")`. -/
def goJoinLines : List String → String
  | [] => ""
  | [l] => l
  | l :: rest => l ++ "\n" ++ goJoinLines rest

/-- Worker for `goReplaceFirst`: replaces the leftmost occurrence of `pat`. -/
def replaceFirstAux (pat repl : List Char) : List Char → List Char
  | [] => if pat = [] then repl else []
  | c :: rest =>
    if pat.isPrefixOf (c :: rest) then repl ++ (c :: rest).drop pat.length
    else c :: replaceFirstAux pat repl rest

/-- `strings.Replace(s, old, new, 1)`: replace the first occurrence only. -/
def goReplaceFirst (s old new : String) : String :=
  String.mk (replaceFirstAux old.data new.data s.data)

/-! ## File system model -/

/-- The on-disk state: path ↦ contents (`none` = the file does not exist, so
`os.ReadFile` errors).  `os.WriteFile` is a pointwise update. -/
abbrev FileSystem := String → Option String

/-- A successful `os.WriteFile path contents`. -/
def fsWrite (fs : FileSystem) (path contents : String) : FileSystem :=
  fun p => if p = path then some contents else fs p

/-! ## Mutation runner (`internal/inspect/mutation.go`) -/

/-- `MutationType` (`mutation.go`): the Go string constants become an enum;
`MutationType.string` recovers the constant's value. -/
inductive MutationType
  | operatorReplace
  | conditionNegate
  | boundaryChange
  | statementDelete
  deriving DecidableEq, Repr

/-- The string value of each `MutationType` constant (`mutation.go`). -/
def MutationType.string : MutationType → String
  | .operatorReplace => "operator_replacement"
  | .conditionNegate => "condition_negation"
  | .boundaryChange => "boundary_change"
  | .statementDelete => "statement_deletion"

/-- `Mutant` (`mutation.go`): a single injected fault. -/
structure Mutant where
  filePath : String
  line : Nat
  type : MutationType
  original : String
  mutated : String
  killed : Bool := false
  equivalent : Bool := false
  killingTest : String := ""
  deriving DecidableEq, Repr

/-- The subset of `go/token` tokens the runner inspects.  `lnot` is
`token.NOT`; `other` stands for every other operator. -/
inductive GoToken
  | add
  | sub
  | mul
  | quo
  | eql
  | neq
  | lss
  | gtr
  | leq
  | geq
  | land
  | lor
  | lnot
  | other
  deriving DecidableEq, Repr

/-- `token.Token.String()` for the tokens above. -/
def GoToken.string : GoToken → String
  | .add => "+"
  | .sub => "-"
  | .mul => "*"
  | .quo => "/"
  | .eql => "=="
  | .neq => "!="
  | .lss => "<"
  | .gtr => ">"
  | .leq => "<="
  | .geq => ">="
  | .land => "&&"
  | .lor => "||"
  | .lnot => "!"
  | .other => "other"

/-- `operatorReplacement` (`mutation.go`): the fixed replacement bijection. -/
def operatorReplacement : GoToken → Option GoToken
  | .add => some .sub
  | .sub => some .add
  | .mul => some .quo
  | .quo => some .mul
  | .eql => some .neq
  | .neq => some .eql
  | .lss => some .geq
  | .geq => some .lss
  | .gtr => some .leq
  | .leq => some .gtr
  | .land => some .lor
  | .lor => some .land
  | _ => none

/-- `boundaryChange` (`mutation.go`): the boundary-shift table. -/
def boundaryChange : GoToken → Option GoToken
  | .lss => some .leq
  | .leq => some .lss
  | .gtr => some .geq
  | .geq => some .gtr
  | _ => none

/-- A parsed Go expression tree, as far as `findMutationSites` observes it:
binary expressions, unary expressions (each with the source line of its
position), and everything else. -/
inductive GoExpr
  | binary (op : GoToken) (line : Nat) (lhs rhs : GoExpr)
  | unary (op : GoToken) (line : Nat) (operand : GoExpr)
  | atom
  deriving DecidableEq, Repr

/-- The mutants the `ast.Inspect` callback of `findMutationSites`
(`mutation.go`, lines 160–193) emits at a single node: the
operator-replacement mutant (if any), then the boundary-change mutant (if
any), for a binary expression; the condition-negation mutant for a
`token.NOT` unary expression; nothing otherwise. -/
def nodeMutants (filePath : String) : GoExpr → List Mutant
  | .binary op line _ _ =>
    (match operatorReplacement op with
     | some rep =>
       [{ filePath := filePath, line := line, type := .operatorReplace,
          original := op.string, mutated := rep.string }]
     | none => []) ++
    (match boundaryChange op with
     | some bnd =>
       [{ filePath := filePath, line := line, type := .boundaryChange,
          original := op.string, mutated := bnd.string }]
     | none => [])
  | .unary op line _ =>
    if op = .lnot then
      [{ filePath := filePath, line := line, type := .conditionNegate,
         original := "!expr", mutated := "expr" }]
    else []
  | .atom => []

/-- The preorder walk of `ast.Inspect` in `findMutationSites`: a node's
mutants, then the left subtree's, then the right subtree's. -/
def mutationSites (filePath : String) : GoExpr → List Mutant
  | .binary op line lhs rhs =>
    nodeMutants filePath (.binary op line lhs rhs) ++
      mutationSites filePath lhs ++ mutationSites filePath rhs
  | .unary op line operand =>
    nodeMutants filePath (.unary op line operand) ++
      mutationSites filePath operand
  | .atom => []

/-- `MutationRunner` (`mutation.go`).  `runTests` is the injected test
command (the error is `some` message); it may observe the file system.
`parseFile` models the `parser.ParseFile` + `token.FileSet` collaborator:
the syntax tree of the file at a path on the pre-run disk, or `none` on a
parse/read error. -/
structure MutationRunner where
  runTests : FileSystem → List String → Option String
  parseFile : String → Option GoExpr

/-- `Name` (`mutation.go`). -/
def MutationRunner.name (_m : MutationRunner) : String := "mutation_testing"

/-- `FaultClass` (`mutation.go`). -/
def MutationRunner.faultClass (_m : MutationRunner) : String :=
  "test suite inadequacy"

/-- `Applicable` (`mutation.go`): work type `code` and at least one modified
package. -/
def MutationRunner.Applicable (_m : MutationRunner) (input : InspectInput) :
    Bool :=
  input.workType == "code" && 0 < input.modifiedPackages.length

/-- `findMutationSites` (`mutation.go`): parse the file, then walk the tree;
`none` is the parse error case. -/
def MutationRunner.findMutationSites (m : MutationRunner) (filePath : String) :
    Option (List Mutant) :=
  match m.parseFile filePath with
  | none => none
  | some tree => some (mutationSites filePath tree)

/-- `applyAndTest` (`mutation.go`, lines 200–229), with every `os.WriteFile`
succeeding: read the file, bail out (`false`, nothing written) when the read
fails, the line is out of range, or the replacement does not change the line;
otherwise write the mutated content, run the tests (an error means the mutant
was killed), and unconditionally restore the original bytes.  Returns the
killed flag and the resulting disk state. -/
def MutationRunner.applyAndTest (m : MutationRunner) (fs : FileSystem)
    (filePath : String) (line : Nat) (original mutated : String)
    (packages : List String) : Bool × FileSystem :=
  match fs filePath with
  | none => (false, fs)
  | some content =>
    let lines := goSplitLines content
    if line < 1 ∨ lines.length < line then (false, fs)
    else
      let originalLine := lines.getD (line - 1) ""
      let mutatedLine := goReplaceFirst originalLine original mutated
      if mutatedLine = originalLine then (false, fs)
      else
        let fs1 := fsWrite fs filePath (goJoinLines (lines.set (line - 1) mutatedLine))
        let killed := (m.runTests fs1 packages).isSome
        let fs2 := fsWrite fs1 filePath content
        (killed, fs2)

/-- `applyAndTest` with a fallible restoring write: `restoreErr` is the error
the final `os.WriteFile` returns (`none` = success).  The Go code binds that
error to the blank identifier (`_ = os.WriteFile(...)`), so it flows nowhere:
the returned value is the killed flag alone, and on failure the file keeps
its mutated contents. -/
def MutationRunner.applyAndTestRestoreErr (m : MutationRunner)
    (fs : FileSystem) (filePath : String) (line : Nat)
    (original mutated : String) (packages : List String)
    (restoreErr : Option String) : Bool × FileSystem :=
  match fs filePath with
  | none => (false, fs)
  | some content =>
    let lines := goSplitLines content
    if line < 1 ∨ lines.length < line then (false, fs)
    else
      let originalLine := lines.getD (line - 1) ""
      let mutatedLine := goReplaceFirst originalLine original mutated
      if mutatedLine = originalLine then (false, fs)
      else
        let fs1 := fsWrite fs filePath (goJoinLines (lines.set (line - 1) mutatedLine))
        let killed := (m.runTests fs1 packages).isSome
        let fs2 := match restoreErr with
          | none => fsWrite fs1 filePath content
          | some _ => fs1
        (killed, fs2)

/-- One iteration of the file loop in `Run` (`mutation.go`, lines 74–83):
non-Go and `_test.go` files are skipped, unparseable files are skipped, and
discovered mutants are appended. -/
def MutationRunner.discoverStep (m : MutationRunner) (acc : List Mutant)
    (file : String) : List Mutant :=
  if !(goHasSuffix file ".go") || goHasSuffix file "_test.go" then acc
  else
    match m.findMutationSites file with
    | none => acc
    | some muts => acc ++ muts

/-- The file loop of `Run`: all mutants over the modified files. -/
def MutationRunner.discoverAll (m : MutationRunner) (input : InspectInput) :
    List Mutant :=
  input.modifiedFiles.foldl m.discoverStep []

/-- One iteration of the apply loop in `Run` (`mutation.go`, lines 95–103):
run `applyAndTest` on the current disk state and record the killed flag. -/
def MutationRunner.applyStep (m : MutationRunner) (packages : List String)
    (acc : List Mutant × FileSystem) (mu : Mutant) :
    List Mutant × FileSystem :=
  let r := m.applyAndTest acc.2 mu.filePath mu.line mu.original mu.mutated
    packages
  (acc.1 ++ [{ mu with killed := r.1 }], r.2)

/-- The apply loop of `Run`: every mutant, one at a time, threading the disk
state. -/
def MutationRunner.applyAll (m : MutationRunner) (packages : List String)
    (fs : FileSystem) (muts : List Mutant) : List Mutant × FileSystem :=
  muts.foldl (m.applyStep packages) ([], fs)

/-- The evidence detail for one surviving mutant (`mutation.go`,
lines 117–120). -/
def survivorDetail (mu : Mutant) : String :=
  "surviving mutant at line " ++ toString mu.line ++ ": " ++ mu.original ++
    " → " ++ mu.mutated ++ " (" ++ mu.type.string ++ ")"

/-- One iteration of the tally loop in `Run` (`mutation.go`, lines 107–123):
equivalent mutants are excluded; others count toward the total, and each
survivor appends one evidence entry. -/
def tallyStep (acc : Nat × Nat × List Evidence) (mu : Mutant) :
    Nat × Nat × List Evidence :=
  if mu.equivalent then acc
  else
    (if mu.killed then acc.1 + 1 else acc.1,
     acc.2.1 + 1,
     if mu.killed then acc.2.2
     else acc.2.2 ++
       [{ filePath := mu.filePath, detail := survivorDetail mu }])

/-- The tally loop of `Run`: `(killed, total, evidence)`. -/
def tallyMutants (muts : List Mutant) : Nat × Nat × List Evidence :=
  muts.foldl tallyStep (0, 0, [])

/-- `Run` (`mutation.go`, lines 63–147): returns the Go pair
`(*TechniqueResult, error)` plus the resulting disk state. -/
def MutationRunner.Run (m : MutationRunner) (fs : FileSystem)
    (input : InspectInput) : (TechniqueResult × Option String) × FileSystem :=
  if !(m.Applicable input) then
    (({ name := m.name, score := 0, verdict := Verdict.skip,
        deterministic := true }, none), fs)
  else
    let allMutants := m.discoverAll input
    if allMutants.length = 0 then
      (({ name := m.name, score := 0, verdict := Verdict.skip,
          deterministic := true }, none), fs)
    else
      let applied := m.applyAll input.modifiedPackages fs allMutants
      let tally := tallyMutants applied.1
      let killed := tally.1
      let total := tally.2.1
      let evidence := tally.2.2
      if total = 0 then
        (({ name := m.name, score := 0, verdict := Verdict.skip,
            deterministic := true }, none), applied.2)
      else
        let score : ℚ := (killed : ℚ) / (total : ℚ)
        let verdict := if score < 1 then Verdict.fail else Verdict.pass
        (({ name := m.name, score := score, verdict := verdict,
            evidence := evidence, deterministic := true }, none), applied.2)

/-! ## Translation validator (the `TranslationValidator` source file) -/

/-- `MechanicalCheck`: one mechanical validation of a criterion. -/
structure MechanicalCheck where
  criterionID : String
  description : String
  check : InspectInput → Bool

/-- `TranslationValidator`, with its three injected collaborators
(`fileExists`, `buildCheck`, `testCheck`; the latter two return an error or
`nil`). -/
structure TranslationValidator where
  fileExists : String → Bool
  buildCheck : List String → Option String
  testCheck : List String → Option String

/-- `Name` (translation validator). -/
def TranslationValidator.name (_t : TranslationValidator) : String :=
  "translation_validation"

/-- `FaultClass` (translation validator). -/
def TranslationValidator.faultClass (_t : TranslationValidator) : String :=
  "specification conformance errors"

/-- `Applicable` (translation validator): at least one PRD criterion or one
use-case criterion present. -/
def TranslationValidator.Applicable (_t : TranslationValidator)
    (input : InspectInput) : Bool :=
  0 < input.prdCriteria.length || 0 < input.ucCriteria.length

/-- `buildChecks` (translation validator): one file-existence check per
modified file, then a compilation check and a tests-pass check when any
package is modified. -/
def TranslationValidator.buildChecks (t : TranslationValidator)
    (input : InspectInput) : List MechanicalCheck :=
  (input.modifiedFiles.map fun f =>
    { criterionID := "file_exists"
      description := "file " ++ f ++ " exists"
      check := fun _ => t.fileExists f }) ++
  (if 0 < input.modifiedPackages.length then
    [{ criterionID := "compilation"
       description := "modified packages compile"
       check := fun inp => (t.buildCheck inp.modifiedPackages).isNone }]
   else []) ++
  (if 0 < input.modifiedPackages.length then
    [{ criterionID := "tests_pass"
       description := "tests pass in modified packages"
       check := fun inp => (t.testCheck inp.modifiedPackages).isNone }]
   else [])

/-- One iteration of the check loop in the validator's `Run`: a passing check
increments `passed`; either way one evidence entry is appended, prefixed
with "passed: " or "failed: ". -/
def checkStep (input : InspectInput) (acc : Nat × List Evidence)
    (mc : MechanicalCheck) : Nat × List Evidence :=
  if mc.check input then
    (acc.1 + 1, acc.2 ++
      [{ criterionID := mc.criterionID,
         detail := "passed: " ++ mc.description }])
  else
    (acc.1, acc.2 ++
      [{ criterionID := mc.criterionID,
         detail := "failed: " ++ mc.description }])

/-- The check loop of the validator's `Run`: `(passed, evidence)`. -/
def runChecks (input : InspectInput) (checks : List MechanicalCheck) :
    Nat × List Evidence :=
  checks.foldl (checkStep input) (0, [])

/-- `Run` (translation validator): skip when not applicable or when no checks
were generated; otherwise score `passed/total` with verdict `pass` iff all
checks pass. -/
def TranslationValidator.Run (t : TranslationValidator)
    (input : InspectInput) : TechniqueResult × Option String :=
  if !(t.Applicable input) then
    ({ name := t.name, score := 0, verdict := Verdict.skip,
       deterministic := true }, none)
  else
    let checks := t.buildChecks input
    if checks.length = 0 then
      ({ name := t.name, score := 0, verdict := Verdict.skip,
         deterministic := true }, none)
    else
      let res := runChecks input checks
      let passed := res.1
      let evidence := res.2
      let score : ℚ := (passed : ℚ) / (checks.length : ℚ)
      let verdict :=
        if passed < checks.length then Verdict.fail else Verdict.pass
      ({ name := t.name, score := score, verdict := verdict,
         evidence := evidence, deterministic := true }, none)

/-- The skip result every technique returns for expected-empty conditions:
score 0, verdict skip, deterministic, no evidence. -/
def skipResultFor (name : String) : TechniqueResult :=
  { name := name, score := 0, verdict := Verdict.skip, deterministic := true }

/-! ## Concrete fixtures for witnesses and counterexamples -/

/-- A one-file disk holding a two-line Go-like source. -/
def fsFix : FileSystem := fun p =>
  if p = "a.go" then some "x := a < b\ny := 2" else none

/-- A runner whose injected test command always reports a failure and whose
parser yields no tree. -/
def mFix : MutationRunner :=
  { runTests := fun _ _ => some "tests failed", parseFile := fun _ => none }

/-- A validator for which only `a.go` exists and build/tests succeed. -/
def tvFix : TranslationValidator :=
  { fileExists := fun p => p == "a.go"
    buildCheck := fun _ => none
    testCheck := fun _ => none }

/-- A docs-type input with no criteria: applicable to neither technique. -/
def inDocs : InspectInput := { workType := "docs" }

/-- Scenario-D input: a criterion present, two modified files, no declared
packages. -/
def inTwoFiles : InspectInput :=
  { prdCriteria := ["criteria present"], modifiedFiles := ["a.go", "b.go"] }

/-- A configuration with an empty weight map and default-like thresholds. -/
def flatConfig : ScorerConfig :=
  { weights := fun _ => none
    acceptThreshold := 8 / 10
    mendThreshold := 5 / 10
    minDeterministic := 5 / 10 }

/-- Two non-skip results with in-range scores. -/
def twoResults : List TechniqueResult :=
  [{ name := "a", score := 1, verdict := Verdict.pass },
   { name := "b", score := 0, verdict := Verdict.fail }]

/-- IEEE-754 `float64` division, observed only as far as the claims need it:
for a zero divisor Go's `0.0/0.0` is NaN (and `x/0.0` is an infinity),
neither of which is a value of `[0,1]`; both are modelled as `none`.
Otherwise the quotient is exact.  This is the one point where the rational
model of `float64` diverges from the program. -/
def floatDiv (a b : ℚ) : Option ℚ :=
  if b = 0 then none else some (a / b)

/-- A configuration whose every configured weight is `0` — each inside
`[0,1]`. -/
def zeroWeightConfig : ScorerConfig :=
  { weights := fun n =>
      if n = "a" then some 0 else if n = "b" then some 0 else none
    acceptThreshold := 80 / 100
    mendThreshold := 50 / 100
    minDeterministic := 50 / 100 }

/-- Two non-skip results whose configured weights are both `0`. -/
def zeroWeightResults : List TechniqueResult :=
  [{ name := "a", score := 1, verdict := Verdict.pass },
   { name := "b", score := 1, verdict := Verdict.pass }]

/-- A configuration whose weight for `"alpha"` lies outside `[0,1]`. -/
def badWeightConfig : ScorerConfig :=
  { weights := fun n => if n = "alpha" then some (-1) else none
    acceptThreshold := 80 / 100
    mendThreshold := 50 / 100
    minDeterministic := 50 / 100 }

/-- Two non-skip results, the first carrying the out-of-range weight. -/
def badWeightResults : List TechniqueResult :=
  [{ name := "alpha", score := 0, verdict := Verdict.fail },
   { name := "beta", score := 1, verdict := Verdict.pass }]

/-! ### Fold characterization lemmas -/

theorem scoreStep_skip (s : Scorer) (acc : ℚ × ℚ × Nat) (r : TechniqueResult)
    (h : r.verdict = Verdict.skip) : s.scoreStep acc r = acc := by
  simp [Scorer.scoreStep, h]

theorem scoreFold_aux (s : Scorer) (l : List TechniqueResult) :
    ∀ init : ℚ × ℚ × Nat,
      l.foldl s.scoreStep init =
        (init.1 + s.weightedSumOf l, init.2.1 + s.totalWeightOf l,
          init.2.2 + (nonSkipResults l).length) := by
  induction l with
  | nil =>
    intro init
    simp [Scorer.weightedSumOf, Scorer.totalWeightOf, nonSkipResults]
  | cons r rest ih =>
    intro init
    by_cases h : r.verdict = Verdict.skip
    · simp only [List.foldl_cons, scoreStep_skip s init r h, ih,
        Scorer.weightedSumOf, Scorer.totalWeightOf, nonSkipResults,
        List.filter_cons, h]
      simp
    · simp only [List.foldl_cons, Scorer.scoreStep, if_neg h, ih,
        Scorer.weightedSumOf, Scorer.totalWeightOf, nonSkipResults,
        List.filter_cons, h]
      simp
      refine ⟨by ring, by ring, by omega⟩

theorem scoreFold_eq (s : Scorer) (results : List TechniqueResult) :
    s.scoreFold results =
      (s.weightedSumOf results, s.totalWeightOf results,
        (nonSkipResults results).length) := by
  have h := scoreFold_aux s results (0, 0, 0)
  simpa [Scorer.scoreFold] using h

theorem detStep_skip (s : Scorer) (acc : ℚ × ℚ) (r : TechniqueResult)
    (h : r.verdict = Verdict.skip) : s.detStep acc r = acc := by
  simp [Scorer.detStep, h]

theorem detFold_aux (s : Scorer) (l : List TechniqueResult) :
    ∀ init : ℚ × ℚ,
      l.foldl s.detStep init =
        (init.1 + s.detWeightOf l, init.2 + s.totalWeightOf l) := by
  induction l with
  | nil =>
    intro init
    simp [Scorer.detWeightOf, Scorer.totalWeightOf, nonSkipResults]
  | cons r rest ih =>
    intro init
    by_cases h : r.verdict = Verdict.skip
    · simp only [List.foldl_cons, detStep_skip s init r h, ih,
        Scorer.detWeightOf, Scorer.totalWeightOf, nonSkipResults,
        List.filter_cons, h]
      simp
    · by_cases hd : r.deterministic
      · simp only [List.foldl_cons, Scorer.detStep, if_neg h, hd, if_true, ih,
          Scorer.detWeightOf, Scorer.totalWeightOf, nonSkipResults,
          List.filter_cons, h]
        simp [hd]
        constructor <;> ring
      · simp only [List.foldl_cons, Scorer.detStep, if_neg h, hd, ih,
          Scorer.detWeightOf, Scorer.totalWeightOf, nonSkipResults,
          List.filter_cons, h]
        simp [hd]
        ring

theorem detFold_eq (s : Scorer) (results : List TechniqueResult) :
    s.detFold results = (s.detWeightOf results, s.totalWeightOf results) := by
  have h := detFold_aux s results (0, 0)
  simpa [Scorer.detFold] using h

/-! ### Weight and sum bounds -/

theorem weightFor_nonneg (s : Scorer)
    (hw : ∀ n w, s.config.weights n = some w → 0 ≤ w ∧ w ≤ 1)
    (name : String) : 0 ≤ s.weightFor name := by
  unfold Scorer.weightFor
  cases h : s.config.weights name with
  | none => norm_num
  | some w => exact (hw name w h).1

theorem weightFor_le_one (s : Scorer)
    (hw : ∀ n w, s.config.weights n = some w → 0 ≤ w ∧ w ≤ 1)
    (name : String) : s.weightFor name ≤ 1 := by
  unfold Scorer.weightFor
  cases h : s.config.weights name with
  | none => norm_num
  | some w => exact (hw name w h).2

theorem totalWeightOf_nonneg (s : Scorer) (results : List TechniqueResult)
    (hw : ∀ n w, s.config.weights n = some w → 0 ≤ w ∧ w ≤ 1) :
    0 ≤ s.totalWeightOf results := by
  apply List.sum_nonneg
  intro x hx
  obtain ⟨r, _, rfl⟩ := List.mem_map.1 hx
  exact weightFor_nonneg s hw r.name

theorem weightedSumOf_nonneg (s : Scorer) (results : List TechniqueResult)
    (hw : ∀ n w, s.config.weights n = some w → 0 ≤ w ∧ w ≤ 1)
    (hs : ∀ r ∈ results, 0 ≤ r.score ∧ r.score ≤ 1) :
    0 ≤ s.weightedSumOf results := by
  apply List.sum_nonneg
  intro x hx
  obtain ⟨r, hr, rfl⟩ := List.mem_map.1 hx
  have hr' : r ∈ results := by
    have h2 : r ∈ results ∧ ¬r.verdict = Verdict.skip := by
      simpa [nonSkipResults] using hr
    exact h2.1
  exact mul_nonneg (hs r hr').1 (weightFor_nonneg s hw r.name)

theorem weightedSumOf_le_totalWeightOf (s : Scorer)
    (results : List TechniqueResult)
    (hw : ∀ n w, s.config.weights n = some w → 0 ≤ w ∧ w ≤ 1)
    (hs : ∀ r ∈ results, 0 ≤ r.score ∧ r.score ≤ 1) :
    s.weightedSumOf results ≤ s.totalWeightOf results := by
  unfold Scorer.weightedSumOf Scorer.totalWeightOf
  apply List.sum_le_sum
  intro r hr
  have hr' : r ∈ results := by
    have h2 : r ∈ results ∧ ¬r.verdict = Verdict.skip := by
      simpa [nonSkipResults] using hr
    exact h2.1
  calc r.score * s.weightFor r.name
      ≤ 1 * s.weightFor r.name :=
        mul_le_mul_of_nonneg_right (hs r hr').2 (weightFor_nonneg s hw r.name)
    _ = s.weightFor r.name := one_mul _

theorem detWeightOf_nonneg (s : Scorer) (results : List TechniqueResult)
    (hw : ∀ n w, s.config.weights n = some w → 0 ≤ w ∧ w ≤ 1) :
    0 ≤ s.detWeightOf results := by
  apply List.sum_nonneg
  intro x hx
  obtain ⟨r, _, rfl⟩ := List.mem_map.1 hx
  exact weightFor_nonneg s hw r.name

theorem detWeightOf_le_totalWeightOf (s : Scorer)
    (results : List TechniqueResult)
    (hw : ∀ n w, s.config.weights n = some w → 0 ≤ w ∧ w ≤ 1) :
    s.detWeightOf results ≤ s.totalWeightOf results := by
  unfold Scorer.detWeightOf Scorer.totalWeightOf
  apply List.Sublist.sum_le_sum
  · exact List.Sublist.map _ (List.filter_sublist _)
  · intro a ha
    obtain ⟨r, _, rfl⟩ := List.mem_map.1 ha
    exact weightFor_nonneg s hw r.name

/-! ## Claim C1 -/

/-- C1 — Validity floor: whenever fewer than 2 results have a non-skip
verdict (in particular for the empty list and all-skip lists), `Score`
returns `ValidScore = false`, action `human_review`, and composite score
zero, regardless of the individual scores. -/
theorem score_validity_floor (s : Scorer) (results : List TechniqueResult)
    (h : (nonSkipResults results).length < 2) :
    (s.Score results).validScore = false ∧
      (s.Score results).action = Action.humanReview ∧
      (s.Score results).compositeScore = 0 := by
  simp [Scorer.Score, scoreFold_eq, h]

/-- Witness for C1 at the empty result list. -/
theorem score_validity_floor_witness :
    ((NewScorer DefaultScorerConfig).Score []).validScore = false ∧
      ((NewScorer DefaultScorerConfig).Score []).action =
        Action.humanReview ∧
      ((NewScorer DefaultScorerConfig).Score []).compositeScore = 0 :=
  score_validity_floor (NewScorer DefaultScorerConfig) [] (by decide)

/-! ## Claim C2 -/

/-- C2 — Composite formula and routing: with at least 2 non-skip results,
`Score` returns `ValidScore = true`, composite
`Σ(score_i·weight_i)/Σ(weight_i)` over exactly the non-skip results, a
name absent from the weight map receives the fixed default weight `0.10`,
and the action is `accept` iff the composite reaches the accept threshold,
else `mend` iff it reaches the mend threshold, else `human_review`. -/
theorem score_composite_formula (s : Scorer) (results : List TechniqueResult)
    (h : 2 ≤ (nonSkipResults results).length) :
    (s.Score results).validScore = true ∧
      (s.Score results).compositeScore =
        s.weightedSumOf results / s.totalWeightOf results ∧
      (∀ name, s.config.weights name = none → s.weightFor name = 10 / 100) ∧
      (s.Score results).action =
        (if s.weightedSumOf results / s.totalWeightOf results ≥
            s.config.acceptThreshold then Action.accept
         else if s.weightedSumOf results / s.totalWeightOf results ≥
            s.config.mendThreshold then Action.mend
         else Action.humanReview) := by
  have hlt : ¬ ((nonSkipResults results).length < 2) := not_lt.2 h
  refine ⟨?_, ?_, ?_, ?_⟩
  · simp [Scorer.Score, scoreFold_eq, hlt]
  · simp [Scorer.Score, scoreFold_eq, hlt]
  · intro name hn
    simp [Scorer.weightFor, hn]
  · simp [Scorer.Score, scoreFold_eq, hlt, Scorer.actionFor]

/-- Witness for C2: two non-skip results under the default configuration. -/
theorem score_composite_formula_witness :
    (((NewScorer DefaultScorerConfig).Score
        [{ name := "translation_validation", score := 9 / 10,
           verdict := Verdict.pass },
         { name := "mutation_testing", score := 85 / 100,
           verdict := Verdict.pass }]).validScore = true) ∧
      (((NewScorer DefaultScorerConfig).Score
        [{ name := "translation_validation", score := 9 / 10,
           verdict := Verdict.pass },
         { name := "mutation_testing", score := 85 / 100,
           verdict := Verdict.pass }]).compositeScore =
        (NewScorer DefaultScorerConfig).weightedSumOf
            [{ name := "translation_validation", score := 9 / 10,
               verdict := Verdict.pass },
             { name := "mutation_testing", score := 85 / 100,
               verdict := Verdict.pass }] /
          (NewScorer DefaultScorerConfig).totalWeightOf
            [{ name := "translation_validation", score := 9 / 10,
               verdict := Verdict.pass },
             { name := "mutation_testing", score := 85 / 100,
               verdict := Verdict.pass }]) := by
  have h := score_composite_formula (NewScorer DefaultScorerConfig)
    [{ name := "translation_validation", score := 9 / 10,
       verdict := Verdict.pass },
     { name := "mutation_testing", score := 85 / 100,
       verdict := Verdict.pass }] (by decide)
  exact ⟨h.1, h.2.1⟩

/-! ## Claim C5 (corrected) -/

/-- C5 counterexample — the claim "weights and scores in `[0,1]` and ≥2
non-skip results imply a composite in `[0,1]`" is false of the program: with
both configured weights `0` (each inside `[0,1]`) and two in-range non-skip
results, `Score` takes the valid branch and divides by a total weight of
`0`; in `float64` that quotient is `0.0/0.0 = NaN` (modelled by `floatDiv`
returning `none`), not a value of `[0,1]`.  Every hypothesis of the claim
holds at this input. -/
theorem composite_unit_interval_cex :
    (∀ n w, zeroWeightConfig.weights n = some w → 0 ≤ w ∧ w ≤ 1) ∧
      (∀ r ∈ zeroWeightResults, 0 ≤ r.score ∧ r.score ≤ 1) ∧
      2 ≤ (nonSkipResults zeroWeightResults).length ∧
      ((NewScorer zeroWeightConfig).Score zeroWeightResults).validScore =
        true ∧
      (NewScorer zeroWeightConfig).totalWeightOf zeroWeightResults = 0 ∧
      floatDiv
        ((NewScorer zeroWeightConfig).weightedSumOf zeroWeightResults)
        ((NewScorer zeroWeightConfig).totalWeightOf zeroWeightResults) =
        none := by
  have hwa : (NewScorer zeroWeightConfig).weightFor "a" = 0 := by
    simp [Scorer.weightFor, NewScorer, zeroWeightConfig]
  have hwb : (NewScorer zeroWeightConfig).weightFor "b" = 0 := by
    simp [Scorer.weightFor, NewScorer, zeroWeightConfig]
  have htot :
      (NewScorer zeroWeightConfig).totalWeightOf zeroWeightResults = 0 := by
    simp [Scorer.totalWeightOf, nonSkipResults, zeroWeightResults, hwa, hwb]
  have hfold : (NewScorer zeroWeightConfig).scoreFold zeroWeightResults =
      (0, 0, 2) := by
    simp [Scorer.scoreFold, Scorer.scoreStep, zeroWeightResults, hwa, hwb]
  refine ⟨?_, ?_, by decide, ?_, htot, ?_⟩
  · intro n w h
    simp only [zeroWeightConfig] at h
    split_ifs at h
    all_goals simp only [Option.some.injEq] at h
    all_goals subst h
    all_goals exact ⟨le_refl 0, by norm_num⟩
  · intro r hr
    simp only [zeroWeightResults, List.mem_cons, List.not_mem_nil,
      or_false] at hr
    rcases hr with rfl | rfl <;> exact ⟨by norm_num, by norm_num⟩
  · simp [Scorer.Score, hfold]
  · simp [floatDiv, htot]

/-- C5 amended — Composite range bound with the corner the counterexample
forces excluded: with at least 2 non-skip results, if every configured
weight and every per-technique score lies in `[0,1]` and the total weight
of the non-skip results is positive, the composite score lies in
`[0,1]`. -/
theorem score_composite_in_unit_interval (s : Scorer)
    (results : List TechniqueResult)
    (hw : ∀ n w, s.config.weights n = some w → 0 ≤ w ∧ w ≤ 1)
    (hs : ∀ r ∈ results, 0 ≤ r.score ∧ r.score ≤ 1)
    (h2 : 2 ≤ (nonSkipResults results).length)
    (hpos : 0 < s.totalWeightOf results) :
    0 ≤ (s.Score results).compositeScore ∧
      (s.Score results).compositeScore ≤ 1 := by
  have hlt : ¬ ((nonSkipResults results).length < 2) := not_lt.2 h2
  have hcs : (s.Score results).compositeScore =
      s.weightedSumOf results / s.totalWeightOf results := by
    simp [Scorer.Score, scoreFold_eq, hlt]
  rw [hcs]
  have h0w := weightedSumOf_nonneg s results hw hs
  have hle := weightedSumOf_le_totalWeightOf s results hw hs
  exact ⟨div_nonneg h0w (le_of_lt hpos), (div_le_one hpos).2 hle⟩

/-- Witness for the amended C5: an all-default-weight configuration, two
in-range scores, and a positive total weight. -/
theorem score_composite_in_unit_interval_witness :
    0 ≤ ((NewScorer flatConfig).Score twoResults).compositeScore ∧
      ((NewScorer flatConfig).Score twoResults).compositeScore ≤ 1 :=
  score_composite_in_unit_interval (NewScorer flatConfig) twoResults
    (by intro n w h; exact Option.noConfusion h)
    (by
      intro r hr
      simp only [twoResults, List.mem_cons, List.not_mem_nil, or_false] at hr
      rcases hr with rfl | rfl <;> exact ⟨by norm_num, by norm_num⟩)
    (by decide)
    (by
      have htw : (NewScorer flatConfig).totalWeightOf twoResults = 1 / 5 := by
        simp [Scorer.totalWeightOf, nonSkipResults, twoResults,
          Scorer.weightFor, NewScorer, flatConfig]
        norm_num
      rw [htw]
      norm_num)

/-! ## Claim C10 -/

/-- C10 — Determinism-accounting division guard: whenever the summed weight
of non-skip results is zero (in particular when every result is skip),
`DeterministicWeight` returns exactly `0`, and under in-range weights its
value always lies in `[0,1]`; `Score`, by contrast, has no such guard: with
at least 2 non-skip results it still takes the valid branch and computes the
quotient by the total weight even when that total is zero. -/
theorem deterministicWeight_guard (s : Scorer)
    (results : List TechniqueResult)
    (hw : ∀ n w, s.config.weights n = some w → 0 ≤ w ∧ w ≤ 1) :
    (s.totalWeightOf results = 0 → s.DeterministicWeight results = 0) ∧
      ((∀ r ∈ results, r.verdict = Verdict.skip) →
        s.DeterministicWeight results = 0) ∧
      (0 ≤ s.DeterministicWeight results ∧
        s.DeterministicWeight results ≤ 1) ∧
      (s.totalWeightOf results = 0 → 2 ≤ (nonSkipResults results).length →
        (s.Score results).validScore = true ∧
          (s.Score results).compositeScore =
            s.weightedSumOf results / s.totalWeightOf results) := by
  have hguard : s.totalWeightOf results = 0 →
      s.DeterministicWeight results = 0 := by
    intro h
    simp [Scorer.DeterministicWeight, detFold_eq, h]
  refine ⟨hguard, ?_, ?_, ?_⟩
  · intro h
    apply hguard
    have hnil : nonSkipResults results = [] := by
      simp only [nonSkipResults, List.filter_eq_nil_iff]
      intro r hr
      simp [h r hr]
    simp [Scorer.totalWeightOf, hnil]
  · by_cases hz : s.totalWeightOf results = 0
    · rw [hguard hz]
      norm_num
    · have h0t := totalWeightOf_nonneg s results hw
      have hp : 0 < s.totalWeightOf results := lt_of_le_of_ne h0t (Ne.symm hz)
      have hdw : s.DeterministicWeight results =
          s.detWeightOf results / s.totalWeightOf results := by
        simp [Scorer.DeterministicWeight, detFold_eq, hz]
      rw [hdw]
      exact ⟨div_nonneg (detWeightOf_nonneg s results hw) h0t,
        (div_le_one hp).2 (detWeightOf_le_totalWeightOf s results hw)⟩
  · intro _ h2
    have hlt : ¬ ((nonSkipResults results).length < 2) := not_lt.2 h2
    constructor <;> simp [Scorer.Score, scoreFold_eq, hlt]

/-- Witness for C10: default weights, a single all-skip result list. -/
theorem deterministicWeight_guard_witness :
    (NewScorer DefaultScorerConfig).DeterministicWeight
        [{ name := "mutation_testing", score := 1, verdict := Verdict.skip,
           deterministic := true }] = 0 ∧
      0 ≤ (NewScorer DefaultScorerConfig).DeterministicWeight
        [{ name := "mutation_testing", score := 1, verdict := Verdict.skip,
           deterministic := true }] := by
  have h := deterministicWeight_guard (NewScorer DefaultScorerConfig)
    [{ name := "mutation_testing", score := 1, verdict := Verdict.skip,
       deterministic := true }]
    (by
      intro n w hw
      simp only [NewScorer, DefaultScorerConfig, DefaultWeights] at hw
      split_ifs at hw <;> simp_all <;> subst hw <;> constructor <;> norm_num)
  exact ⟨h.2.1 (by decide), (h.2.2.1).1⟩

/-! ## Claim C3 -/

/-- C3 — Restoration invariant: with the runner's writes succeeding, after
one `applyAndTest` cycle the on-disk bytes of the file equal the bytes read
at the start of the cycle, whatever the mutant, the test outcome, or a
test-runner error. -/
theorem applyAndTest_restores_file (m : MutationRunner) (fs : FileSystem)
    (filePath : String) (line : Nat) (original mutated : String)
    (packages : List String) (content : String)
    (h : fs filePath = some content) :
    (m.applyAndTest fs filePath line original mutated packages).2 filePath =
      some content := by
  simp only [MutationRunner.applyAndTest, h]
  split_ifs with h1 h2
  · exact h
  · exact h
  · simp [fsWrite]

/-- Witness for C3: a concrete mutant applied to the fixture disk. -/
theorem applyAndTest_restores_file_witness :
    (mFix.applyAndTest fsFix "a.go" 1 "<" ">=" ["pkg"]).2 "a.go" =
      some "x := a < b\ny := 2" :=
  applyAndTest_restores_file mFix fsFix "a.go" 1 "<" ">=" ["pkg"]
    "x := a < b\ny := 2" (by decide)

/-! ## Claim C4 -/

/-- C4 — Mutation taxonomy: at a unary node only `!` yields a mutant (one
condition negation); at a binary node each of the twelve listed operators
yields exactly one operator-replacement mutant via the fixed bijection, each
relational operator additionally yields exactly one boundary-change mutant,
and no other node yields anything. -/
theorem mutation_taxonomy (fp : String) (line : Nat) :
    (∀ op, op ≠ GoToken.lnot →
      mutationSites fp (GoExpr.unary op line GoExpr.atom) = []) ∧
    mutationSites fp (GoExpr.unary GoToken.lnot line GoExpr.atom) =
      [{ filePath := fp, line := line, type := MutationType.conditionNegate,
         original := "!expr", mutated := "expr" }] ∧
    mutationSites fp (GoExpr.binary GoToken.add line GoExpr.atom GoExpr.atom) =
      [{ filePath := fp, line := line, type := MutationType.operatorReplace,
         original := "+", mutated := "-" }] ∧
    mutationSites fp (GoExpr.binary GoToken.sub line GoExpr.atom GoExpr.atom) =
      [{ filePath := fp, line := line, type := MutationType.operatorReplace,
         original := "-", mutated := "+" }] ∧
    mutationSites fp (GoExpr.binary GoToken.mul line GoExpr.atom GoExpr.atom) =
      [{ filePath := fp, line := line, type := MutationType.operatorReplace,
         original := "*", mutated := "/" }] ∧
    mutationSites fp (GoExpr.binary GoToken.quo line GoExpr.atom GoExpr.atom) =
      [{ filePath := fp, line := line, type := MutationType.operatorReplace,
         original := "/", mutated := "*" }] ∧
    mutationSites fp (GoExpr.binary GoToken.eql line GoExpr.atom GoExpr.atom) =
      [{ filePath := fp, line := line, type := MutationType.operatorReplace,
         original := "==", mutated := "!=" }] ∧
    mutationSites fp (GoExpr.binary GoToken.neq line GoExpr.atom GoExpr.atom) =
      [{ filePath := fp, line := line, type := MutationType.operatorReplace,
         original := "!=", mutated := "==" }] ∧
    mutationSites fp (GoExpr.binary GoToken.land line GoExpr.atom GoExpr.atom) =
      [{ filePath := fp, line := line, type := MutationType.operatorReplace,
         original := "&&", mutated := "||" }] ∧
    mutationSites fp (GoExpr.binary GoToken.lor line GoExpr.atom GoExpr.atom) =
      [{ filePath := fp, line := line, type := MutationType.operatorReplace,
         original := "||", mutated := "&&" }] ∧
    mutationSites fp (GoExpr.binary GoToken.lss line GoExpr.atom GoExpr.atom) =
      [{ filePath := fp, line := line, type := MutationType.operatorReplace,
         original := "<", mutated := ">=" },
       { filePath := fp, line := line, type := MutationType.boundaryChange,
         original := "<", mutated := "<=" }] ∧
    mutationSites fp (GoExpr.binary GoToken.gtr line GoExpr.atom GoExpr.atom) =
      [{ filePath := fp, line := line, type := MutationType.operatorReplace,
         original := ">", mutated := "<=" },
       { filePath := fp, line := line, type := MutationType.boundaryChange,
         original := ">", mutated := ">=" }] ∧
    mutationSites fp (GoExpr.binary GoToken.leq line GoExpr.atom GoExpr.atom) =
      [{ filePath := fp, line := line, type := MutationType.operatorReplace,
         original := "<=", mutated := ">" },
       { filePath := fp, line := line, type := MutationType.boundaryChange,
         original := "<=", mutated := "<" }] ∧
    mutationSites fp (GoExpr.binary GoToken.geq line GoExpr.atom GoExpr.atom) =
      [{ filePath := fp, line := line, type := MutationType.operatorReplace,
         original := ">=", mutated := "<" },
       { filePath := fp, line := line, type := MutationType.boundaryChange,
         original := ">=", mutated := ">" }] ∧
    mutationSites fp (GoExpr.binary GoToken.lnot line GoExpr.atom GoExpr.atom)
      = [] ∧
    mutationSites fp (GoExpr.binary GoToken.other line GoExpr.atom GoExpr.atom)
      = [] ∧
    mutationSites fp GoExpr.atom = [] := by
  refine ⟨?_, rfl, rfl, rfl, rfl, rfl, rfl, rfl, rfl, rfl, rfl, rfl, rfl,
    rfl, rfl, rfl, rfl⟩
  intro op hop
  cases op <;> first | rfl | exact absurd rfl hop

/-- Witness for C4: the hypothesis-bearing clause at the unary `-` node. -/
theorem mutation_taxonomy_witness :
    mutationSites "f.go" (GoExpr.unary GoToken.sub 3 GoExpr.atom) = [] :=
  (mutation_taxonomy "f.go" 3).1 GoToken.sub (by decide)

/-! ## Claim C6 (corrected) -/

/-- C6 counterexample — the claim "an out-of-range weight is rejected with a
named error at configuration time, before any aggregation runs" is false on
the code: `NewScorer` performs no validation, so a configuration whose
weight for `"alpha"` is `-1` (outside `[0,1]`) flows straight into `Score`,
which aggregates and returns a valid-scored composite that is itself
outside `[0,1]`. -/
theorem config_validation_cex :
    badWeightConfig.weights "alpha" = some (-1) ∧
      ((-1 : ℚ) < 0 ∨ 1 < (-1 : ℚ)) ∧
      ((NewScorer badWeightConfig).Score badWeightResults).validScore =
        true ∧
      ((NewScorer badWeightConfig).Score badWeightResults).compositeScore
        < 0 := by
  have hwa : (NewScorer badWeightConfig).weightFor "alpha" = -1 := by
    simp [Scorer.weightFor, NewScorer, badWeightConfig]
  have hwb : (NewScorer badWeightConfig).weightFor "beta" = 10 / 100 := by
    simp [Scorer.weightFor, NewScorer, badWeightConfig]
  have hfold : (NewScorer badWeightConfig).scoreFold badWeightResults =
      (1 / 10, -9 / 10, 2) := by
    simp [Scorer.scoreFold, Scorer.scoreStep, badWeightResults, hwa, hwb]
    norm_num
  refine ⟨by simp [badWeightConfig], by norm_num, ?_, ?_⟩
  · simp [Scorer.Score, hfold]
  · simp [Scorer.Score, hfold]
    norm_num

/-- C6 amended — what the code actually does: `ErrInvalidWeight` and
`ErrNoTechniques` are declared as distinct named errors, but no
configuration-time validation exists: `NewScorer` stores any configuration
unchanged (its signature has no error channel), and whenever at least two
non-skip results are supplied `Score` proceeds to aggregation regardless of
the configured weights. -/
theorem newScorer_accepts_any_config (config : ScorerConfig)
    (results : List TechniqueResult)
    (h2 : 2 ≤ (nonSkipResults results).length) :
    NewScorer config = { config := config } ∧
      ErrInvalidWeight ≠ ErrNoTechniques ∧
      ((NewScorer config).Score results).validScore = true := by
  refine ⟨rfl, by decide, ?_⟩
  simp [Scorer.Score, scoreFold_eq, not_lt.2 h2]

/-- Witness for the amended C6: the out-of-range configuration is accepted
and scored. -/
theorem newScorer_accepts_any_config_witness :
    NewScorer badWeightConfig = { config := badWeightConfig } ∧
      ErrInvalidWeight ≠ ErrNoTechniques ∧
      ((NewScorer badWeightConfig).Score badWeightResults).validScore =
        true :=
  newScorer_accepts_any_config badWeightConfig badWeightResults (by decide)

/-! ## Claim C7 (corrected) -/

/-- C7 counterexample — the claim "a failed restoring write is reported to
the caller" is false on the code: on the fixture disk, the run whose
restoring write fails returns exactly the same value as the run whose
restoring write succeeds (the caller sees only the killed flag), even
though the failed run leaves the file in its mutated state. -/
theorem restore_failure_unreported_cex :
    ((mFix.applyAndTestRestoreErr fsFix "a.go" 1 "<" ">=" ["pkg"]
        (some "write failed: disk full")).1 =
      (mFix.applyAndTestRestoreErr fsFix "a.go" 1 "<" ">=" ["pkg"]
        none).1) ∧
      ((mFix.applyAndTestRestoreErr fsFix "a.go" 1 "<" ">=" ["pkg"]
          (some "write failed: disk full")).2 "a.go" ≠ fsFix "a.go") := by
  constructor <;> decide

/-- C7 amended — what the code actually does: the restoring write's error is
bound to the blank identifier and discarded, so the value returned to the
caller is identical whether or not restoration succeeded; a failed
restoration is not reported (and leaves the mutated bytes on disk). -/
theorem restore_failure_invisible_to_caller (m : MutationRunner)
    (fs : FileSystem) (filePath : String) (line : Nat)
    (original mutated : String) (packages : List String)
    (restoreErr : Option String) :
    (m.applyAndTestRestoreErr fs filePath line original mutated packages
        restoreErr).1 =
      (m.applyAndTestRestoreErr fs filePath line original mutated packages
        none).1 := by
  unfold MutationRunner.applyAndTestRestoreErr
  cases h : fs filePath with
  | none => rfl
  | some content =>
    dsimp only
    split_ifs <;> rfl

/-! ## Claim C8 -/

/-- C8 — Skip, never error: both techniques return a nil error on every
input; a not-applicable input yields the skip result (score 0,
deterministic) for either technique; the mutation runner also yields the
skip result when no mutants are discovered and when the non-equivalent
denominator of the tally is zero; the translation validator also yields the
skip result when zero checks are generated. -/
theorem run_skip_conditions (m : MutationRunner) (fs : FileSystem)
    (t : TranslationValidator) (input : InspectInput) :
    (m.Run fs input).1.2 = none ∧
      (t.Run input).2 = none ∧
      (m.Applicable input = false →
        (m.Run fs input).1.1 = skipResultFor "mutation_testing") ∧
      (m.discoverAll input = [] →
        (m.Run fs input).1.1 = skipResultFor "mutation_testing") ∧
      (m.Applicable input = true →
        (tallyMutants (m.applyAll input.modifiedPackages fs
            (m.discoverAll input)).1).2.1 = 0 →
        (m.Run fs input).1.1 = skipResultFor "mutation_testing") ∧
      (t.Applicable input = false →
        (t.Run input).1 = skipResultFor "translation_validation") ∧
      (t.buildChecks input = [] →
        (t.Run input).1 = skipResultFor "translation_validation") := by
  refine ⟨?_, ?_, ?_, ?_, ?_, ?_, ?_⟩
  · simp only [MutationRunner.Run]
    split
    · rfl
    · split
      · rfl
      · split
        · rfl
        · rfl
  · simp only [TranslationValidator.Run]
    split
    · rfl
    · split
      · rfl
      · rfl
  · intro h
    simp [MutationRunner.Run, h, skipResultFor, MutationRunner.name]
  · intro h
    by_cases ha : m.Applicable input
    · simp [MutationRunner.Run, ha, h, skipResultFor, MutationRunner.name]
    · simp [MutationRunner.Run, ha, skipResultFor, MutationRunner.name]
  · intro ha h0
    by_cases hemp : m.discoverAll input = []
    · simp [MutationRunner.Run, ha, hemp, skipResultFor,
        MutationRunner.name]
    · have hlen : (m.discoverAll input).length ≠ 0 := by
        simpa [List.length_eq_zero] using hemp
      simp [MutationRunner.Run, ha, hlen, h0, skipResultFor,
        MutationRunner.name]
  · intro h
    simp [TranslationValidator.Run, h, skipResultFor,
      TranslationValidator.name]
  · intro h
    by_cases ha : t.Applicable input
    · simp [TranslationValidator.Run, ha, h, skipResultFor,
        TranslationValidator.name]
    · simp [TranslationValidator.Run, ha, skipResultFor,
        TranslationValidator.name]

/-- Witness for C8: on a docs-type input without criteria, both techniques
skip with a nil error. -/
theorem run_skip_conditions_witness :
    (mFix.Run fsFix inDocs).1.1 = skipResultFor "mutation_testing" ∧
      (mFix.Run fsFix inDocs).1.2 = none ∧
      (tvFix.Run inDocs).1 = skipResultFor "translation_validation" ∧
      (tvFix.Run inDocs).2 = none := by
  have h := run_skip_conditions mFix fsFix tvFix inDocs
  exact ⟨h.2.2.1 (by decide), h.1, h.2.2.2.2.2.1 (by decide), h.2.1⟩

/-! ## Claim C9 -/

/-- C9 — Translation Validator, Scenario D: with a criterion present,
exactly two modified files, no declared packages, and the existence check
passing for exactly one of the two files, `Run` scores `0.5`, verdict
`fail`, and produces exactly two evidence entries in generation order, both
under criterion `"file_exists"`, one with a `"passed: …"` detail and one
with a `"failed: …"` detail. -/
theorem translation_validator_scenario_d (t : TranslationValidator)
    (input : InspectInput) (f1 f2 : String)
    (happ : t.Applicable input = true)
    (hfiles : input.modifiedFiles = [f1, f2])
    (hpkgs : input.modifiedPackages = [])
    (hone : t.fileExists f1 ≠ t.fileExists f2) :
    (t.Run input).1.score = 1 / 2 ∧
      (t.Run input).1.verdict = Verdict.fail ∧
      (t.Run input).1.evidence.map Evidence.criterionID =
        ["file_exists", "file_exists"] ∧
      ((∃ d1 d2, (t.Run input).1.evidence.map Evidence.detail =
          ["passed: " ++ d1, "failed: " ++ d2]) ∨
        (∃ d1 d2, (t.Run input).1.evidence.map Evidence.detail =
          ["failed: " ++ d1, "passed: " ++ d2])) := by
  have hchecks : t.buildChecks input =
      [{ criterionID := "file_exists"
         description := "file " ++ f1 ++ " exists"
         check := fun _ => t.fileExists f1 },
       { criterionID := "file_exists"
         description := "file " ++ f2 ++ " exists"
         check := fun _ => t.fileExists f2 }] := by
    simp [TranslationValidator.buildChecks, hfiles, hpkgs]
  cases hb1 : t.fileExists f1 <;> cases hb2 : t.fileExists f2
  · exact absurd (hb1.trans hb2.symm) hone
  · have hrc : runChecks input
        [{ criterionID := "file_exists"
           description := "file " ++ f1 ++ " exists"
           check := fun _ => t.fileExists f1 },
         { criterionID := "file_exists"
           description := "file " ++ f2 ++ " exists"
           check := fun _ => t.fileExists f2 }] =
        (1, [{ criterionID := "file_exists"
               detail := "failed: " ++ ("file " ++ f1 ++ " exists") },
             { criterionID := "file_exists"
               detail := "passed: " ++ ("file " ++ f2 ++ " exists") }]) := by
      simp [runChecks, checkStep, hb1, hb2]
    refine ⟨?_, ?_, ?_, Or.inr ⟨"file " ++ f1 ++ " exists",
      "file " ++ f2 ++ " exists", ?_⟩⟩ <;>
      simp [TranslationValidator.Run, happ, hchecks, hrc]
  · have hrc : runChecks input
        [{ criterionID := "file_exists"
           description := "file " ++ f1 ++ " exists"
           check := fun _ => t.fileExists f1 },
         { criterionID := "file_exists"
           description := "file " ++ f2 ++ " exists"
           check := fun _ => t.fileExists f2 }] =
        (1, [{ criterionID := "file_exists"
               detail := "passed: " ++ ("file " ++ f1 ++ " exists") },
             { criterionID := "file_exists"
               detail := "failed: " ++ ("file " ++ f2 ++ " exists") }]) := by
      simp [runChecks, checkStep, hb1, hb2]
    refine ⟨?_, ?_, ?_, Or.inl ⟨"file " ++ f1 ++ " exists",
      "file " ++ f2 ++ " exists", ?_⟩⟩ <;>
      simp [TranslationValidator.Run, happ, hchecks, hrc]
  · exact absurd (hb1.trans hb2.symm) hone

/-- Witness for C9: the fixture validator on the two-file input, where only
`a.go` exists. -/
theorem translation_validator_scenario_d_witness :
    (tvFix.Run inTwoFiles).1.score = 1 / 2 ∧
      (tvFix.Run inTwoFiles).1.verdict = Verdict.fail ∧
      (tvFix.Run inTwoFiles).1.evidence.map Evidence.criterionID =
        ["file_exists", "file_exists"] ∧
      ((∃ d1 d2, (tvFix.Run inTwoFiles).1.evidence.map Evidence.detail =
          ["passed: " ++ d1, "failed: " ++ d2]) ∨
        (∃ d1 d2, (tvFix.Run inTwoFiles).1.evidence.map Evidence.detail =
          ["failed: " ++ d1, "passed: " ++ d2])) :=
  translation_validator_scenario_d tvFix inTwoFiles "a.go" "b.go"
    (by decide) (by decide) (by decide) (by decide)

end Cobbler
